import Mathlib

/-!
Shallow embedding of the onlinecarehospital scheduling and authorization core.

The authoritative source is the SQL migration
supabase/migrations/20251107081013.sql: table definitions with CHECK
constraints, the partial unique index idx_appointments_no_double_booking,
and the row-level-security policies, together with the dashboard mutation
code (PatientDashboard.cancelAppointment, DoctorDashboard
handleAppointmentAction, the fetchAppointments queries).

Identifiers (uuid), dates and times are modelled as Nat: each is a
discretely ordered key type and the code only ever compares them for
equality or orders them. Nullable columns are Option. Enum-valued text
columns with CHECK constraints become inductive types, so the table CHECK
on status, role and cancelled_by is carried by typing. Postgres semantics
modelled explicitly: permissive RLS policies of one command are OR-ed
(USING must pass on the old row, WITH CHECK on the new row); a FOR ALL
policy with no WITH CHECK reuses its USING expression as the check; rows
failing USING are invisible to UPDATE and DELETE (filtered, not errors);
a WITH CHECK failure or a unique-index violation aborts the statement.
-/

/-- Role values allowed by the CHECK constraint on profiles.role. -/
inductive Role : Type
  | patient
  | doctor
  | admin
deriving DecidableEq, Repr

/-- Status values allowed by the CHECK constraint on appointments.status. -/
inductive Status : Type
  | pending
  | confirmed
  | rejected
  | cancelled
  | completed
deriving DecidableEq, Repr

/-- Values allowed by the CHECK constraint on appointments.cancelled_by. -/
inductive Canceller : Type
  | patient
  | doctor
  | admin
deriving DecidableEq, Repr

/-- Row of the profiles table. -/
structure Profile : Type where
  id : Nat
  fullName : String
  phone : Option String
  role : Role
  emailConfirmed : Bool
deriving DecidableEq, Repr

/-- Row of the doctors table (profile_id and department_id are nullable). -/
structure Doctor : Type where
  id : Nat
  profileId : Option Nat
  departmentId : Option Nat
  specialty : Option String
  experienceYears : Nat
deriving DecidableEq, Repr

/-- Row of the doctor_availabilities table. weekday is an int column whose
only CHECK is weekday BETWEEN 0 AND 6; start_time and end_time are time
columns with no constraint relating them. -/
structure Availability : Type where
  id : Nat
  doctorId : Option Nat
  weekday : Int
  startTime : Nat
  endTime : Nat
deriving DecidableEq, Repr

/-- Row of the appointments table. -/
structure Appointment : Type where
  id : Nat
  patientId : Option Nat
  doctorId : Option Nat
  departmentId : Option Nat
  appointmentDate : Nat
  appointmentTime : Nat
  createdAt : Nat
  status : Status
  patientNote : Option String
  doctorNote : Option String
  cancelledBy : Option Canceller
deriving DecidableEq, Repr

/-- Database state: the tables the scheduling core reads and writes. -/
structure DB : Type where
  profiles : List Profile
  doctors : List Doctor
  availabilities : List Availability
  appointments : List Appointment
deriving DecidableEq, Repr

/-- Caller has an admin profile: EXISTS (SELECT 1 FROM profiles WHERE
profiles.id = auth.uid() AND profiles.role = admin), the predicate of
every admin RLS policy in the migration. -/
def isAdmin (db : DB) (uid : Nat) : Bool :=
  db.profiles.any (fun p => decide (p.id = uid ∧ p.role = Role.admin))

/-- Caller is the doctor owning the given doctor_id: EXISTS (SELECT 1 FROM
doctors WHERE doctors.profile_id = auth.uid() AND doctors.id =
appointments.doctor_id). -/
def doctorOwns (db : DB) (uid : Nat) (docId : Option Nat) : Bool :=
  db.doctors.any (fun d => decide (d.profileId = some uid ∧ some d.id = docId))

/-- Caller has a profile with email_confirmed = true: the EXISTS clause of
the policy Patients can create appointments. -/
def callerEmailConfirmed (db : DB) (uid : Nat) : Bool :=
  db.profiles.any (fun p => decide (p.id = uid ∧ p.emailConfirmed = true))

/-- Errors surfaced by the storage layer. -/
inductive DbError : Type
  | Forbidden
  | SlotTaken
  | CheckViolation
deriving DecidableEq, Repr

/-- Statuses covered by the partial unique index (WHERE status IN
(pending, confirmed)). -/
def isActive (s : Status) : Bool :=
  decide (s = Status.pending ∨ s = Status.confirmed)

/-- Two appointment rows collide on the partial unique index
idx_appointments_no_double_booking ON appointments (doctor_id,
appointment_date, appointment_time) WHERE status IN (pending, confirmed).
Postgres unique indexes treat NULL keys as distinct, hence the isSome
guard. -/
def slotConflict (a b : Appointment) : Bool :=
  a.doctorId.isSome && decide (a.doctorId = b.doctorId) &&
  decide (a.appointmentDate = b.appointmentDate) &&
  decide (a.appointmentTime = b.appointmentTime) &&
  isActive a.status && isActive b.status

/-- The whole table satisfies the partial unique index: no two distinct
rows collide. -/
def uniqueOk : List Appointment → Bool
  | [] => true
  | a :: rest => rest.all (fun b => !slotConflict a b) && uniqueOk rest

/-- Number of rows of a given doctor, date and time slot that the partial
unique index counts (status pending or confirmed). -/
def countSlot (d date t : Nat) (rows : List Appointment) : Nat :=
  (rows.filter (fun a =>
    decide (a.doctorId = some d) && decide (a.appointmentDate = date) &&
    decide (a.appointmentTime = t) && isActive a.status)).length

/-- WITH CHECK condition for inserting an appointment row. Permissive
policies covering INSERT are OR-ed: Patients can create appointments
(auth.uid() = patient_id AND caller profile has email_confirmed = true)
and Admins can manage all appointments (FOR ALL, USING reused as check). -/
def appointmentInsertCheck (db : DB) (uid : Nat) (row : Appointment) : Bool :=
  (decide (some uid = row.patientId) && callerEmailConfirmed db uid) ||
  isAdmin db uid

/-- INSERT INTO appointments as caller uid: the RLS check gates the row,
then the partial unique index rejects a colliding row with a uniqueness
violation (the SlotTaken outcome of the spec). The check-and-insert is one
atomic storage step. -/
def insertAppointment (db : DB) (uid : Nat) (row : Appointment) :
    Except DbError DB :=
  if !appointmentInsertCheck db uid row then .error .Forbidden
  else if db.appointments.any (fun a => slotConflict a row) then
    .error .SlotTaken
  else .ok { db with appointments := db.appointments ++ [row] }

/-- Column assignments an UPDATE statement on appointments may carry in the
observed client code: status, doctor_note, cancelled_by. none leaves the
column untouched. -/
structure UpdatePayload : Type where
  status : Option Status
  doctorNote : Option (Option String)
  cancelledBy : Option (Option Canceller)
deriving DecidableEq, Repr

/-- Apply an update payload to one row. -/
def applyUpdate (p : UpdatePayload) (a : Appointment) : Appointment :=
  { a with
    status := p.status.getD a.status
    doctorNote := p.doctorNote.getD a.doctorNote
    cancelledBy := p.cancelledBy.getD a.cancelledBy }

/-- USING side of the permissive UPDATE policies on appointments, OR-ed:
Patients can cancel their appointments (auth.uid() = patient_id), Doctors
can update their appointment status (caller owns doctor_id), Admins can
manage all appointments. Evaluated on the existing row. -/
def appointmentUpdateUsing (db : DB) (uid : Nat) (a : Appointment) : Bool :=
  decide (a.patientId = some uid) || doctorOwns db uid a.doctorId ||
  isAdmin db uid

/-- WITH CHECK side of the permissive UPDATE policies on appointments,
OR-ed, evaluated on the updated row: the patient policy additionally
requires status = cancelled AND cancelled_by = patient; the doctor and
admin policies repeat their USING expressions. -/
def appointmentUpdateCheck (db : DB) (uid : Nat) (a : Appointment) : Bool :=
  (decide (a.patientId = some uid) && decide (a.status = Status.cancelled) &&
    decide (a.cancelledBy = some Canceller.patient)) ||
  doctorOwns db uid a.doctorId || isAdmin db uid

/-- Row-level decision for an UPDATE of one appointment row with a given
payload: USING on the old row and WITH CHECK on the new row. -/
def appointmentUpdateAllowed (db : DB) (uid : Nat) (old : Appointment)
    (p : UpdatePayload) : Bool :=
  appointmentUpdateUsing db uid old &&
  appointmentUpdateCheck db uid (applyUpdate p old)

/-- UPDATE appointments SET ... WHERE id = targetId, executed as caller
uid. Rows failing USING are invisible and stay untouched; a WITH CHECK
failure on any touched row aborts the statement; the resulting table must
still satisfy the partial unique index, else the statement aborts with a
uniqueness violation. -/
def updateAppointment (db : DB) (uid : Nat) (targetId : Nat)
    (p : UpdatePayload) : Except DbError DB :=
  let touched := fun a : Appointment =>
    decide (a.id = targetId) && appointmentUpdateUsing db uid a
  if (db.appointments.filter touched).any
      (fun a => !appointmentUpdateCheck db uid (applyUpdate p a)) then
    .error .Forbidden
  else
    let rows := db.appointments.map
      (fun a => if touched a then applyUpdate p a else a)
    if uniqueOk rows then .ok { db with appointments := rows }
    else .error .SlotTaken

/-- PatientDashboard.cancelAppointment: supabase.from(appointments)
.update(status cancelled, cancelled_by patient).eq(id, appointmentId). -/
def cancelAppointment (db : DB) (uid : Nat) (appointmentId : Nat) :
    Except DbError DB :=
  updateAppointment db uid appointmentId
    ⟨some Status.cancelled, none, some (some Canceller.patient)⟩

/-- DoctorDashboard.handleAppointmentAction: .update(status confirmed or
rejected, doctor_note note-or-null).eq(id, id); doctorNote empty string is
sent as null (doctorNote || null). -/
def handleAppointmentAction (db : DB) (uid : Nat) (appointmentId : Nat)
    (confirm : Bool) (doctorNote : String) : Except DbError DB :=
  updateAppointment db uid appointmentId
    ⟨some (if confirm then Status.confirmed else Status.rejected),
     some (if doctorNote = "" then none else some doctorNote), none⟩

/-- DELETE FROM appointments WHERE id = targetId as caller uid. The only
policy covering DELETE is Admins can manage all appointments (FOR ALL);
rows invisible under its USING are simply not deleted. -/
def deleteAppointment (db : DB) (uid : Nat) (targetId : Nat) : DB :=
  let kept := db.appointments.filter
    (fun a => !(decide (a.id = targetId) && isAdmin db uid))
  { db with appointments := kept }

/-- Column assignments an UPDATE on profiles may carry. -/
structure ProfilePayload : Type where
  id : Option Nat
  fullName : Option String
  phone : Option (Option String)
  role : Option Role
  emailConfirmed : Option Bool
deriving DecidableEq, Repr

/-- Apply a profile update payload to one row. -/
def applyProfileUpdate (p : ProfilePayload) (a : Profile) : Profile :=
  { id := p.id.getD a.id
    fullName := p.fullName.getD a.fullName
    phone := p.phone.getD a.phone
    role := p.role.getD a.role
    emailConfirmed := p.emailConfirmed.getD a.emailConfirmed }

/-- Row-level decision for UPDATE on profiles. The single UPDATE policy is
Users can update their own profile: USING (auth.uid() = id) WITH CHECK
(auth.uid() = id). No admin UPDATE policy on profiles exists, and no
column of the row is otherwise constrained beyond the role CHECK carried
by the Role type. -/
def profileUpdateAllowed (uid : Nat) (old : Profile) (p : ProfilePayload) :
    Bool :=
  decide (old.id = uid) && decide ((applyProfileUpdate p old).id = uid)

/-- UPDATE profiles SET ... WHERE id = targetId as caller uid. -/
def updateProfile (db : DB) (uid : Nat) (targetId : Nat)
    (p : ProfilePayload) : Except DbError DB :=
  let touched := fun a : Profile =>
    decide (a.id = targetId) && decide (a.id = uid)
  if (db.profiles.filter touched).any
      (fun a => !decide ((applyProfileUpdate p a).id = uid)) then
    .error .Forbidden
  else
    let rows := db.profiles.map
      (fun a => if touched a then applyProfileUpdate p a else a)
    .ok { db with profiles := rows }

/-- Table CHECK constraints on a doctor_availabilities row: weekday BETWEEN
0 AND 6 is the only CHECK besides NOT NULL; nothing relates start_time and
end_time. -/
def availabilityRowOk (a : Availability) : Bool :=
  decide (0 ≤ a.weekday ∧ a.weekday ≤ 6)

/-- Insert policy decision for doctor_availabilities: Doctors can manage
their own availability (caller profile joined to the row doctor_id) or
Admins can manage all availabilities, both FOR ALL with USING reused as
check. -/
def availabilityInsertCheck (db : DB) (uid : Nat) (a : Availability) :
    Bool :=
  doctorOwns db uid a.doctorId || isAdmin db uid

/-- INSERT INTO doctor_availabilities as caller uid: RLS check, then the
table CHECK constraints. -/
def insertAvailability (db : DB) (uid : Nat) (a : Availability) :
    Except DbError DB :=
  if !availabilityInsertCheck db uid a then .error .Forbidden
  else if !availabilityRowOk a then .error .CheckViolation
  else .ok { db with availabilities := db.availabilities ++ [a] }

/-- Comparison realising ORDER BY appointment_date ASC, appointment_time
ASC, as issued by both fetchAppointments queries. -/
def apptLe (a b : Appointment) : Bool :=
  decide (a.appointmentDate < b.appointmentDate ∨
    (a.appointmentDate = b.appointmentDate ∧
      a.appointmentTime ≤ b.appointmentTime))

/-- PatientDashboard.fetchAppointments: select rows with patient_id =
profile.id (also exactly the rows the patient SELECT policy exposes),
ordered by appointment_date ascending, then appointment_time ascending. -/
def fetchPatientAppointments (db : DB) (uid : Nat) : List Appointment :=
  (db.appointments.filter (fun a => decide (a.patientId = some uid))).mergeSort
    apptLe

/-- DoctorDashboard.fetchAppointments: select rows with doctor_id =
doctorId of the caller, ordered by appointment_date ascending, then
appointment_time ascending. -/
def fetchDoctorAppointments (db : DB) (docId : Nat) : List Appointment :=
  (db.appointments.filter (fun a => decide (a.doctorId = some docId))).mergeSort
    apptLe

/-- State after the migration runs: sample departments only, every other
table empty (departments are not part of the modelled state). -/
def initDB : DB :=
  ⟨[], [], [], []⟩

/-- One committed mutation of the store: an appointment insert, update or
delete issued by some caller, or any mutation that leaves the appointments
table unchanged (profile, doctor, availability and department traffic). -/
inductive Step : DB → DB → Prop
  | insert {db db' : DB} (uid : Nat) (row : Appointment)
      (h : insertAppointment db uid row = .ok db') : Step db db'
  | update {db db' : DB} (uid targetId : Nat) (p : UpdatePayload)
      (h : updateAppointment db uid targetId p = .ok db') : Step db db'
  | delete {db : DB} (uid targetId : Nat) :
      Step db (deleteAppointment db uid targetId)
  | frame {db db' : DB} (h : db'.appointments = db.appointments) :
      Step db db'

/-- States reachable from the migrated store by committed mutations. -/
inductive Reachable : DB → Prop
  | init : Reachable initDB
  | step {db db' : DB} (h : Reachable db) (s : Step db db') : Reachable db'

/-- Concrete patient profile with confirmed email. -/
def profP : Profile := ⟨1, "Pat", none, Role.patient, true⟩

/-- Second concrete patient profile with confirmed email. -/
def profQ : Profile := ⟨2, "Quinn", none, Role.patient, true⟩

/-- Concrete doctor profile. -/
def profDoc : Profile := ⟨3, "Dana", none, Role.doctor, true⟩

/-- Concrete admin profile whose email is not confirmed. -/
def profAdmin : Profile := ⟨4, "Ada", none, Role.admin, false⟩

/-- Concrete patient profile whose email is not confirmed. -/
def profR : Profile := ⟨6, "Rae", none, Role.patient, false⟩

/-- Concrete doctors-table row linking doctor 5 to profile 3. -/
def docRow : Doctor := ⟨5, some 3, none, none, 0⟩

/-- Concrete store with the five profiles and one doctor, no appointments. -/
def dbBase : DB := ⟨[profP, profQ, profDoc, profAdmin, profR], [docRow], [], []⟩

/-- Concrete pending appointment of patient 1 with doctor 5. -/
def apptA : Appointment :=
  ⟨10, some 1, some 5, none, 20250301, 1400, 0, Status.pending, none, none,
   none⟩

/-- Concrete pending appointment of patient 2 on the same doctor, date and
time slot as apptA. -/
def apptB : Appointment :=
  ⟨11, some 2, some 5, none, 20250301, 1400, 0, Status.pending, none, none,
   none⟩

/-- Store dbBase after apptA was inserted. -/
def dbAfterA : DB :=
  ⟨[profP, profQ, profDoc, profAdmin, profR], [docRow], [], [apptA]⟩

/-- Payload setting only the role column. -/
def roleOnlyPayload (r : Role) : ProfilePayload := ⟨none, none, none, some r, none⟩

/-- Store dbBase after patient 1 set their own role to admin. -/
def dbEscalated : DB :=
  ⟨[⟨1, "Pat", none, Role.admin, true⟩, profQ, profDoc, profAdmin, profR],
   [docRow], [], []⟩

/-- Concrete rejected appointment of patient 1 with doctor 5. -/
def apptARejected : Appointment :=
  ⟨10, some 1, some 5, none, 20250301, 1400, 0, Status.rejected, none, none,
   none⟩

/-- Store holding only the rejected appointment. -/
def dbRejected : DB :=
  ⟨[profP, profQ, profDoc, profAdmin, profR], [docRow], [], [apptARejected]⟩

/-- Store dbRejected after doctor 5 confirmed the rejected appointment. -/
def dbRejConfirmed : DB :=
  ⟨[profP, profQ, profDoc, profAdmin, profR], [docRow], [],
   [⟨10, some 1, some 5, none, 20250301, 1400, 0, Status.confirmed, none,
     none, none⟩]⟩

/-- Payload of the doctor confirm action with an empty note. -/
def confirmPayload : UpdatePayload := ⟨some Status.confirmed, some none, none⟩

/-- Payload of the doctor reject action with an empty note. -/
def rejectPayload : UpdatePayload := ⟨some Status.rejected, some none, none⟩

/-- Payload built by PatientDashboard.cancelAppointment. -/
def cancelPayload : UpdatePayload :=
  ⟨some Status.cancelled, none, some (some Canceller.patient)⟩

/-- Concrete completed appointment of patient 1 with doctor 5. -/
def apptACompleted : Appointment :=
  ⟨10, some 1, some 5, none, 20250301, 1400, 0, Status.completed, none, none,
   none⟩

/-- Store holding only the completed appointment. -/
def dbCompleted : DB :=
  ⟨[profP, profQ, profDoc, profAdmin, profR], [docRow], [], [apptACompleted]⟩

/-- Store dbCompleted after patient 1 cancelled the completed appointment. -/
def dbCompletedCancelled : DB :=
  ⟨[profP, profQ, profDoc, profAdmin, profR], [docRow], [],
   [⟨10, some 1, some 5, none, 20250301, 1400, 0, Status.cancelled, none,
     none, some Canceller.patient⟩]⟩

/-- Concrete pending appointment inserted by the admin. -/
def apptByAdmin : Appointment :=
  ⟨12, some 1, some 5, none, 20250401, 900, 0, Status.pending, none, none,
   none⟩

/-- Store dbBase after the admin insert. -/
def dbAdminInserted : DB :=
  ⟨[profP, profQ, profDoc, profAdmin, profR], [docRow], [], [apptByAdmin]⟩

/-- Concrete availability of doctor 5 whose start time is after its end
time. -/
def badAvail : Availability := ⟨20, some 5, 1, 1000, 900⟩

/-- Store dbBase after the inverted availability was inserted. -/
def dbBadAvail : DB :=
  ⟨[profP, profQ, profDoc, profAdmin, profR], [docRow], [badAvail], []⟩

/-- Row transformer realised by the patient cancel statement: the targeted,
policy-visible rows get status cancelled and cancelled_by patient, every
other row and every other column is left as it was. -/
def cancelRowUpdate (db : DB) (uid tid : Nat) (a : Appointment) :
    Appointment :=
  if decide (a.id = tid) && appointmentUpdateUsing db uid a then
    applyUpdate cancelPayload a
  else a

/-- Store dbAfterA after patient 1 cancelled pending appointment 10. -/
def dbCancelledA : DB :=
  ⟨[profP, profQ, profDoc, profAdmin, profR], [docRow], [],
   [⟨10, some 1, some 5, none, 20250301, 1400, 0, Status.cancelled, none,
     none, some Canceller.patient⟩]⟩

lemma uniqueOk_append (l : List Appointment) (r : Appointment)
    (h : uniqueOk l = true)
    (hr : ∀ a ∈ l, slotConflict a r = false) :
    uniqueOk (l ++ [r]) = true := by
  induction l with
  | nil => simp [uniqueOk]
  | cons a rest ih =>
    simp only [uniqueOk, Bool.and_eq_true, List.all_eq_true] at h
    simp only [List.cons_append, uniqueOk, Bool.and_eq_true, List.all_eq_true]
    refine ⟨?_, ih h.2 (fun b hb => hr b (by simp [hb]))⟩
    intro b hb
    rcases List.mem_append.mp hb with hb | hb
    · exact h.1 b hb
    · simp only [List.mem_singleton] at hb
      subst hb
      simp [hr a (by simp)]

lemma uniqueOk_sublist {l l' : List Appointment} (hs : List.Sublist l' l)
    (h : uniqueOk l = true) : uniqueOk l' = true := by
  induction hs with
  | slnil => simp [uniqueOk]
  | cons a hs ih =>
    simp only [uniqueOk, Bool.and_eq_true, List.all_eq_true] at h
    exact ih h.2
  | cons₂ a hs ih =>
    simp only [uniqueOk, Bool.and_eq_true, List.all_eq_true] at h ⊢
    exact ⟨fun b hb => h.1 b (hs.subset hb), ih h.2⟩

lemma countSlot_matches_conflict {d date t : Nat} {a b : Appointment}
    (ha : (decide (a.doctorId = some d) && decide (a.appointmentDate = date) &&
      decide (a.appointmentTime = t) && isActive a.status) = true)
    (hb : (decide (b.doctorId = some d) && decide (b.appointmentDate = date) &&
      decide (b.appointmentTime = t) && isActive b.status) = true) :
    slotConflict a b = true := by
  simp only [Bool.and_eq_true, decide_eq_true_eq] at ha hb
  simp only [slotConflict, Bool.and_eq_true, decide_eq_true_eq]
  refine ⟨⟨⟨⟨⟨?_, ?_⟩, ?_⟩, ?_⟩, ha.2⟩, hb.2⟩
  · simp [ha.1.1.1]
  · rw [ha.1.1.1, hb.1.1.1]
  · rw [ha.1.1.2, hb.1.1.2]
  · rw [ha.1.2, hb.1.2]

lemma uniqueOk_countSlot {l : List Appointment} (h : uniqueOk l = true)
    (d date t : Nat) : countSlot d date t l ≤ 1 := by
  induction l with
  | nil => simp [countSlot]
  | cons a rest ih =>
    simp only [uniqueOk, Bool.and_eq_true, List.all_eq_true] at h
    by_cases hm : (decide (a.doctorId = some d) &&
        decide (a.appointmentDate = date) &&
        decide (a.appointmentTime = t) && isActive a.status) = true
    · have hnil : (rest.filter (fun b =>
          decide (b.doctorId = some d) && decide (b.appointmentDate = date) &&
          decide (b.appointmentTime = t) && isActive b.status)) = [] := by
        rw [List.filter_eq_nil_iff]
        intro b hb hbm
        have hc := countSlot_matches_conflict hm hbm
        have := h.1 b hb
        simp [hc] at this
      simp [countSlot, List.filter_cons, hm, hnil]
    · simp only [countSlot, List.filter_cons, hm]
      exact ih h.2

lemma insertAppointment_ok {db db' : DB} {uid : Nat} {row : Appointment}
    (h : insertAppointment db uid row = .ok db') :
    appointmentInsertCheck db uid row = true ∧
    (∀ a ∈ db.appointments, slotConflict a row = false) ∧
    db'.appointments = db.appointments ++ [row] := by
  unfold insertAppointment at h
  split at h
  · simp at h
  next h1 =>
    split at h
    · simp at h
    next h2 =>
      simp only [Except.ok.injEq] at h
      subst h
      refine ⟨by simpa using h1, ?_, rfl⟩
      intro a ha
      have := List.any_eq_false.mp (by simpa using h2) a ha
      simpa using this

lemma updateAppointment_ok {db db' : DB} {uid targetId : Nat}
    {p : UpdatePayload} (h : updateAppointment db uid targetId p = .ok db') :
    db'.appointments = db.appointments.map (fun a =>
      if decide (a.id = targetId) && appointmentUpdateUsing db uid a then
        applyUpdate p a else a) ∧
    uniqueOk db'.appointments = true ∧
    ∀ a ∈ db.appointments,
      (decide (a.id = targetId) && appointmentUpdateUsing db uid a) = true →
      appointmentUpdateCheck db uid (applyUpdate p a) = true := by
  simp only [updateAppointment] at h
  split at h
  next h1 => simp at h
  next h1 =>
    split at h
    next h2 =>
      simp only [Except.ok.injEq] at h
      subst h
      refine ⟨rfl, h2, ?_⟩
      have h1' : ∀ x ∈ db.appointments, x.id = targetId →
          appointmentUpdateUsing db uid x = true →
          appointmentUpdateCheck db uid (applyUpdate p x) = true := by
        simpa using h1
      intro a ha htouch
      simp only [Bool.and_eq_true, decide_eq_true_eq] at htouch
      exact h1' a ha htouch.1 htouch.2
    · simp at h

lemma reachable_uniqueOk {db : DB} (h : Reachable db) :
    uniqueOk db.appointments = true := by
  induction h with
  | init => simp [initDB, uniqueOk]
  | step hr s ih =>
    cases s with
    | insert uid row hins =>
      obtain ⟨_, hconf, happ⟩ := insertAppointment_ok hins
      rw [happ]
      exact uniqueOk_append _ _ ih hconf
    | update uid targetId p hupd =>
      exact (updateAppointment_ok hupd).2.1
    | delete uid targetId =>
      simp only [deleteAppointment]
      exact uniqueOk_sublist (List.filter_sublist _) ih
    | frame hf => rw [hf]; exact ih

/-- C1: for every doctor and every (date, time) pair, at most one
appointment with status pending or confirmed exists in any reachable
state; and when two creation attempts target the same slot, the storage
step serialises them so that after the first insert commits, the second
(policy-passing) insert fails with SlotTaken — a uniqueness violation
raised by the partial unique index idx_appointments_no_double_booking in
the same atomic step as the insert, not by a separate check. -/
theorem C1_no_double_booking (db : DB) (h : Reachable db) :
    (∀ d date t, countSlot d date t db.appointments ≤ 1) ∧
    (∀ uid1 uid2 d (r1 r2 : Appointment) (db1 : DB),
      r1.doctorId = some d → r2.doctorId = some d →
      r1.appointmentDate = r2.appointmentDate →
      r1.appointmentTime = r2.appointmentTime →
      isActive r1.status = true → isActive r2.status = true →
      insertAppointment db uid1 r1 = Except.ok db1 →
      appointmentInsertCheck db1 uid2 r2 = true →
      insertAppointment db1 uid2 r2 = Except.error DbError.SlotTaken) := by
  constructor
  · intro d date t
    exact uniqueOk_countSlot (reachable_uniqueOk h) d date t
  · intro uid1 uid2 d r1 r2 db1 hd1 hd2 hdate htime ha1 ha2 hins hchk
    obtain ⟨-, -, happ⟩ := insertAppointment_ok hins
    have hc : slotConflict r1 r2 = true := by
      simp only [slotConflict, Bool.and_eq_true, decide_eq_true_eq]
      exact ⟨⟨⟨⟨⟨by simp [hd1], by rw [hd1, hd2]⟩, hdate⟩, htime⟩, ha1⟩, ha2⟩
    have hany : db1.appointments.any (fun a => slotConflict a r2) = true := by
      rw [happ]
      simp only [List.any_append, List.any_cons, List.any_nil, hc]
      simp
    unfold insertAppointment
    rw [hchk, hany]
    simp

/-- Witness for C1: the concrete reachable store dbBase satisfies the slot
bound, and after patient 1 books the slot, the policy-passing booking of
patient 2 for the same slot fails with SlotTaken. -/
theorem C1_no_double_booking_witness :
    countSlot 5 20250301 1400 dbBase.appointments ≤ 1 ∧
    insertAppointment dbAfterA 2 apptB = Except.error DbError.SlotTaken := by
  have h := C1_no_double_booking dbBase
    (Reachable.step Reachable.init (Step.frame rfl))
  refine ⟨h.1 5 20250301 1400, ?_⟩
  exact h.2 1 2 5 apptA apptB dbAfterA rfl rfl rfl rfl (by decide) (by decide)
    rfl (by decide)

/-- Counterexample to C2: profile 1 has role patient, yet the UPDATE
issued by caller 1 on their own row setting role to admin passes the
policy Users can update their own profile and commits, changing the role.
The claim that no permitted update can change a role is false. -/
theorem C2_role_change_counterexample :
    profP.role = Role.patient ∧
    profileUpdateAllowed 1 profP (roleOnlyPayload Role.admin) = true ∧
    updateProfile dbBase 1 1 (roleOnlyPayload Role.admin) =
      Except.ok dbEscalated ∧
    (applyProfileUpdate (roleOnlyPayload Role.admin) profP).role =
      Role.admin := by
  refine ⟨rfl, by decide, rfl, rfl⟩

/-- C2 amended: the role field is not immutable. The only UPDATE policy on
profiles, Users can update their own profile, tests in USING and WITH
CHECK only that the row id is the caller id, so a user updating their own
row may set role to any value. The second conjunct characterises the
policy decision on every row without restriction: it holds exactly when
the old and the updated row carry the caller id, and in particular never
reads the role column. -/
theorem C2_role_mutable (uid : Nat) (old : Profile) (r : Role) :
    (old.id = uid →
      profileUpdateAllowed uid old (roleOnlyPayload r) = true ∧
      (applyProfileUpdate (roleOnlyPayload r) old).role = r) ∧
    (∀ p : ProfilePayload, profileUpdateAllowed uid old p = true ↔
      old.id = uid ∧ (applyProfileUpdate p old).id = uid) := by
  constructor
  · intro h
    constructor
    · simp [profileUpdateAllowed, applyProfileUpdate, roleOnlyPayload, h]
    · simp [applyProfileUpdate, roleOnlyPayload]
  · intro p
    simp [profileUpdateAllowed]

/-- Witness for C2 at profile 1 and role admin. -/
theorem C2_role_mutable_witness :
    profP.id = 1 ∧
    profileUpdateAllowed 1 profP (roleOnlyPayload Role.admin) = true ∧
    (applyProfileUpdate (roleOnlyPayload Role.admin) profP).role =
      Role.admin :=
  ⟨rfl, ((C2_role_mutable 1 profP Role.admin).1 rfl).1,
   ((C2_role_mutable 1 profP Role.admin).1 rfl).2⟩

/-- Counterexample to C3: the caller is doctor 5 (profile 3) and owns
appointment 10, whose prior status is rejected, not pending; yet the
confirm action of the doctor dashboard commits and sets the status to
confirmed. The claimed prior-status conditions on doctor updates are not
enforced. -/
theorem C3_rejected_to_confirmed_counterexample :
    apptARejected.status = Status.rejected ∧
    handleAppointmentAction dbRejected 3 10 true "" =
      Except.ok dbRejConfirmed ∧
    dbRejConfirmed.appointments =
      [{ apptARejected with status := Status.confirmed }] :=
  ⟨rfl, rfl, rfl⟩

/-- C3 amended: for a caller who is not an admin and not the patient owner
of the row, an appointment update (whose payload touches only status,
doctor_note or cancelled_by) is allowed exactly when a doctors row links
the caller profile to the appointment doctor_id. Neither the prior status
nor the new status is examined for such a caller. -/
theorem C3_doctor_update_ownership_only (db : DB) (uid : Nat)
    (old : Appointment) (p : UpdatePayload)
    (hadm : isAdmin db uid = false)
    (hpat : old.patientId ≠ some uid) :
    appointmentUpdateAllowed db uid old p = doctorOwns db uid old.doctorId := by
  have hnew : (applyUpdate p old).patientId = old.patientId := rfl
  have hdoc : (applyUpdate p old).doctorId = old.doctorId := rfl
  simp only [appointmentUpdateAllowed, appointmentUpdateUsing,
    appointmentUpdateCheck, hnew, hdoc, hadm]
  rw [decide_eq_false hpat]
  cases doctorOwns db uid old.doctorId <;> simp

/-- Witness for C3 at doctor 5 confirming the rejected appointment. -/
theorem C3_doctor_update_ownership_only_witness :
    isAdmin dbRejected 3 = false ∧
    apptARejected.patientId ≠ some 3 ∧
    appointmentUpdateAllowed dbRejected 3 apptARejected confirmPayload =
      doctorOwns dbRejected 3 apptARejected.doctorId :=
  ⟨by decide, by decide,
   C3_doctor_update_ownership_only dbRejected 3 apptARejected confirmPayload
     (by decide) (by decide)⟩

/-- Counterexample to C4: dbRejected is reachable (book, then the doctor
rejects), its single appointment is in the terminal status rejected, and
yet the doctor-issued update to confirmed commits: a terminal state is
followed by another status change in a reachable execution. -/
theorem C4_terminal_changed_counterexample :
    Reachable dbRejected ∧
    dbRejected.appointments.map Appointment.status = [Status.rejected] ∧
    updateAppointment dbRejected 3 10 confirmPayload =
      Except.ok dbRejConfirmed ∧
    dbRejConfirmed.appointments.map Appointment.status =
      [Status.confirmed] :=
  ⟨Reachable.step
    (Reachable.step
      (Reachable.step Reachable.init (Step.frame rfl : Step initDB dbBase))
      (Step.insert 1 apptA rfl : Step dbBase dbAfterA))
    (Step.update 3 10 rejectPayload rfl : Step dbAfterA dbRejected),
   rfl, rfl, rfl⟩

/-- C4 amended: the appointment UPDATE policies never read the current
status, so a status-setting update permitted on a row in one status is
permitted in any other status; in particular rejected, cancelled and
completed rows can still have their status changed by the owning doctor
or an admin, and set to cancelled by the patient owner. Only the client
UI refrains from offering such actions. -/
theorem C4_policy_ignores_prior_status (db : DB) (uid : Nat)
    (a : Appointment) (p : UpdatePayload) (s s' v : Status)
    (hv : p.status = some v) :
    appointmentUpdateAllowed db uid { a with status := s } p =
      appointmentUpdateAllowed db uid { a with status := s' } p := by
  simp [appointmentUpdateAllowed, appointmentUpdateUsing,
    appointmentUpdateCheck, applyUpdate, hv]

/-- Witness for C4: the doctor confirm action is equally allowed on the
rejected row and on the same row with status pending. -/
theorem C4_policy_ignores_prior_status_witness :
    confirmPayload.status = some Status.confirmed ∧
    appointmentUpdateAllowed dbRejected 3
        { apptARejected with status := Status.rejected } confirmPayload =
      appointmentUpdateAllowed dbRejected 3
        { apptARejected with status := Status.pending } confirmPayload :=
  ⟨rfl, C4_policy_ignores_prior_status dbRejected 3 apptARejected
    confirmPayload Status.rejected Status.pending Status.confirmed rfl⟩

/-- Counterexample to C5: patient 1 cancels their own appointment whose
prior status is completed (terminal, and in particular not pending), and
the cancel commits. The prior-status conjunct claimed for patient updates
is not enforced by the policy. -/
theorem C5_cancel_completed_counterexample :
    apptACompleted.status = Status.completed ∧
    cancelAppointment dbCompleted 1 10 = Except.ok dbCompletedCancelled ∧
    dbCompletedCancelled.appointments.map Appointment.status =
      [Status.cancelled] :=
  ⟨rfl, rfl, rfl⟩

/-- C5 amended: for a caller who is not an admin and is linked to no
doctors row, an appointment update is allowed exactly when the caller is
the patient owner and the updated row has status cancelled and
cancelled_by patient; the prior status is not examined. Every update a
row is not allowed for leaves that row unchanged in the table. -/
theorem C5_patient_cancel_policy (db : DB) (uid : Nat) (old : Appointment)
    (p : UpdatePayload)
    (hadm : isAdmin db uid = false)
    (hdoc : ∀ d ∈ db.doctors, d.profileId ≠ some uid) :
    (appointmentUpdateAllowed db uid old p = true ↔
      (old.patientId = some uid ∧
       (applyUpdate p old).status = Status.cancelled ∧
       (applyUpdate p old).cancelledBy = some Canceller.patient)) ∧
    (∀ targetId db', updateAppointment db uid targetId p = Except.ok db' →
      ∀ a ∈ db.appointments, appointmentUpdateAllowed db uid a p = false →
        a ∈ db'.appointments) := by
  have hown : ∀ docId, doctorOwns db uid docId = false := by
    intro docId
    rw [doctorOwns, List.any_eq_false]
    intro d hd
    simp [hdoc d hd]
  constructor
  · have hpat : (applyUpdate p old).patientId = old.patientId := rfl
    simp [appointmentUpdateAllowed, appointmentUpdateUsing,
      appointmentUpdateCheck, hadm, hown, hpat]
    tauto
  · intro targetId db' hok a ha hfalse
    obtain ⟨hmap, -, hchk⟩ := updateAppointment_ok hok
    rw [hmap]
    by_cases ht : (decide (a.id = targetId) &&
        appointmentUpdateUsing db uid a) = true
    · exfalso
      have hcheck := hchk a ha ht
      have husing : appointmentUpdateUsing db uid a = true :=
        (Bool.and_eq_true _ _).mp ht |>.2
      have hall : appointmentUpdateAllowed db uid a p = true := by
        simp [appointmentUpdateAllowed, husing, hcheck]
      simp [hall] at hfalse
    · refine List.mem_map.mpr ⟨a, ha, ?_⟩
      simp [ht]

/-- Witness for C5: the cancel of the completed appointment by its patient
owner is allowed. -/
theorem C5_patient_cancel_policy_witness :
    appointmentUpdateAllowed dbCompleted 1 apptACompleted cancelPayload =
      true ∧
    apptACompleted.status = Status.completed :=
  ⟨(C5_patient_cancel_policy dbCompleted 1 apptACompleted cancelPayload
      (by decide) (by decide)).1.mpr ⟨rfl, rfl, rfl⟩, rfl⟩

/-- Counterexample to C6: caller 4 is an admin whose profile has
email_confirmed = false, yet the insert passes the FOR ALL admin policy
and a row is created. The claim that every caller with unconfirmed email
is denied is false. -/
theorem C6_unconfirmed_admin_insert_counterexample :
    callerEmailConfirmed dbBase 4 = false ∧
    insertAppointment dbBase 4 apptByAdmin = Except.ok dbAdminInserted :=
  ⟨by decide, rfl⟩

/-- C6 amended: a successful insert by a non-admin caller requires the
caller id to equal the new patient_id and the caller profile to have
email_confirmed = true, and a non-admin caller without confirmed email is
always denied with no row created; an admin may insert regardless of
email confirmation through the FOR ALL admin policy. -/
theorem C6_create_email_confirmation (db : DB) (uid : Nat)
    (row : Appointment) :
    (∀ db', isAdmin db uid = false →
      insertAppointment db uid row = Except.ok db' →
      some uid = row.patientId ∧ callerEmailConfirmed db uid = true) ∧
    (isAdmin db uid = false → callerEmailConfirmed db uid = false →
      insertAppointment db uid row = Except.error DbError.Forbidden) := by
  constructor
  · intro db' hadm hok
    obtain ⟨hchk, -, -⟩ := insertAppointment_ok hok
    simp only [appointmentInsertCheck, hadm, Bool.or_false,
      Bool.and_eq_true, decide_eq_true_eq] at hchk
    exact hchk
  · intro hadm hconf
    have hchk : appointmentInsertCheck db uid row = false := by
      simp [appointmentInsertCheck, hadm, hconf]
    simp [insertAppointment, hchk]

/-- Witness for C6: patient 6 has no confirmed email and the insert is
denied. -/
theorem C6_create_email_confirmation_witness :
    isAdmin dbBase 6 = false ∧ callerEmailConfirmed dbBase 6 = false ∧
    insertAppointment dbBase 6 apptByAdmin =
      Except.error DbError.Forbidden :=
  ⟨by decide, by decide,
   (C6_create_email_confirmation dbBase 6 apptByAdmin).2 (by decide)
     (by decide)⟩

/-- Counterexample to C7: the admin delete of appointment 10 removes the
row, so the delete operation is not denied for every caller. -/
theorem C7_admin_delete_counterexample :
    dbAfterA.appointments = [apptA] ∧
    isAdmin dbAfterA 4 = true ∧
    (deleteAppointment dbAfterA 4 10).appointments = [] :=
  ⟨rfl, by decide, rfl⟩

/-- C7 amended: a DELETE on appointments by a non-admin caller removes
nothing (the store is unchanged), while an admin caller deletes exactly
the rows with the targeted id — the FOR ALL admin policy covers DELETE. -/
theorem C7_delete_only_admin (db : DB) (uid targetId : Nat) :
    (isAdmin db uid = false → deleteAppointment db uid targetId = db) ∧
    (isAdmin db uid = true →
      (deleteAppointment db uid targetId).appointments =
        db.appointments.filter (fun a => !decide (a.id = targetId))) := by
  constructor
  · intro h
    cases db with
    | mk pr docs av appts => simp [deleteAppointment, h]
  · intro h
    simp [deleteAppointment, h]

/-- Witness for C7: patient 1 deletes nothing, the admin empties the
table. -/
theorem C7_delete_only_admin_witness :
    isAdmin dbAfterA 1 = false ∧
    deleteAppointment dbAfterA 1 10 = dbAfterA ∧
    (deleteAppointment dbAfterA 4 10).appointments = [] := by
  refine ⟨by decide, (C7_delete_only_admin dbAfterA 1 10).1 (by decide), ?_⟩
  rw [(C7_delete_only_admin dbAfterA 4 10).2 (by decide)]
  rfl

/-- Counterexample to C9: doctor 5 inserts an availability with start_time
1000 and end_time 900; every table CHECK passes and the row is stored, so
the claimed startTime < endTime invariant is not enforced. -/
theorem C9_start_end_counterexample :
    insertAvailability dbBase 3 badAvail = Except.ok dbBadAvail ∧
    badAvail.endTime < badAvail.startTime :=
  ⟨rfl, by decide⟩

/-- C9 amended: a committed doctor_availabilities insert guarantees only
the table CHECK weekday BETWEEN 0 AND 6; no constraint relates start_time
and end_time, so rows with start_time at or after end_time are accepted. -/
theorem C9_availability_weekday_check (db : DB) (uid : Nat)
    (a : Availability) (db' : DB)
    (h : insertAvailability db uid a = Except.ok db') :
    (0 ≤ a.weekday ∧ a.weekday ≤ 6) ∧
    db'.availabilities = db.availabilities ++ [a] := by
  simp only [insertAvailability] at h
  split at h
  · simp at h
  next h1 =>
    split at h
    next h2 => simp at h
    next h2 =>
      simp only [Except.ok.injEq] at h
      subst h
      refine ⟨?_, rfl⟩
      have hok : availabilityRowOk a = true := by simpa using h2
      simpa [availabilityRowOk] using hok

/-- Witness for C9 at the concrete inverted-availability insert. -/
theorem C9_availability_weekday_check_witness :
    (0 ≤ badAvail.weekday ∧ badAvail.weekday ≤ 6) ∧
    dbBadAvail.availabilities = dbBase.availabilities ++ [badAvail] :=
  C9_availability_weekday_check dbBase 3 badAvail dbBadAvail rfl

/-- C10: a committed patient cancel rewrites the appointments table
pointwise by cancelRowUpdate, which preserves every column other than
status and cancelled_by on every row, and leaves every row whose id is
not the target completely unchanged. -/
theorem C10_cancel_frame (db : DB) (uid tid : Nat) (db' : DB)
    (h : cancelAppointment db uid tid = Except.ok db') :
    db'.appointments = db.appointments.map (cancelRowUpdate db uid tid) ∧
    (∀ a : Appointment,
      (cancelRowUpdate db uid tid a).id = a.id ∧
      (cancelRowUpdate db uid tid a).patientId = a.patientId ∧
      (cancelRowUpdate db uid tid a).doctorId = a.doctorId ∧
      (cancelRowUpdate db uid tid a).departmentId = a.departmentId ∧
      (cancelRowUpdate db uid tid a).appointmentDate = a.appointmentDate ∧
      (cancelRowUpdate db uid tid a).appointmentTime = a.appointmentTime ∧
      (cancelRowUpdate db uid tid a).patientNote = a.patientNote ∧
      (cancelRowUpdate db uid tid a).doctorNote = a.doctorNote ∧
      (cancelRowUpdate db uid tid a).createdAt = a.createdAt) ∧
    (∀ a : Appointment, a.id ≠ tid → cancelRowUpdate db uid tid a = a) := by
  refine ⟨(updateAppointment_ok h).1, ?_, ?_⟩
  · intro a
    unfold cancelRowUpdate
    split <;> simp [applyUpdate, cancelPayload]
  · intro a hne
    simp [cancelRowUpdate, hne]

/-- Witness for C10 at the concrete cancel of appointment 10. -/
theorem C10_cancel_frame_witness :
    cancelAppointment dbAfterA 1 10 = Except.ok dbCancelledA ∧
    dbCancelledA.appointments =
      dbAfterA.appointments.map (cancelRowUpdate dbAfterA 1 10) :=
  ⟨rfl, (C10_cancel_frame dbAfterA 1 10 dbCancelledA rfl).1⟩

lemma apptLe_trans : ∀ a b c : Appointment, apptLe a b = true →
    apptLe b c = true → apptLe a c = true := by
  intro a b c
  simp only [apptLe, decide_eq_true_eq]
  omega

lemma apptLe_total : ∀ a b : Appointment,
    (apptLe a b || apptLe b a) = true := by
  intro a b
  simp only [apptLe, Bool.or_eq_true, decide_eq_true_eq]
  omega

/-- C8: for every caller, the dashboard listing returns exactly the rows
of the caller (patient_id respectively doctor_id filter) as a list sorted
by appointment_date ascending and then appointment_time ascending; beyond
being some reordering of the visible rows, no further ordering property is
established. -/
theorem C8_list_ordering (db : DB) (uid docId : Nat) :
    List.Sorted (fun a b => apptLe a b = true)
      (fetchPatientAppointments db uid) ∧
    List.Perm (fetchPatientAppointments db uid)
      (db.appointments.filter (fun a => decide (a.patientId = some uid))) ∧
    List.Sorted (fun a b => apptLe a b = true)
      (fetchDoctorAppointments db docId) ∧
    List.Perm (fetchDoctorAppointments db docId)
      (db.appointments.filter (fun a => decide (a.doctorId = some docId))) := by
  refine ⟨?_, ?_, ?_, ?_⟩
  · exact List.sorted_mergeSort apptLe_trans apptLe_total _
  · exact List.mergeSort_perm _ _
  · exact List.sorted_mergeSort apptLe_trans apptLe_total _
  · exact List.mergeSort_perm _ _
